import Mathlib

/-!
# Verification of the bridge-rl play engine

A shallow embedding of the bridge-rl repository: the card data model
(`src/game/card.py`), the game engine `BridgePlay` (`src/game/game.py`) and the
rule-based Defender-1 policy (`src/agents/rule_based_agent.py`), together with
theorems settling the specification claims about them.

Python conventions modelled here:
* Python lists become `List`; dictionaries keyed by player id become
  `Fin 4 → _` functions; the insertion-ordered suit dictionary of
  `_group_by_suit` becomes an association list built in insertion order.
* `max(..., key=k)` / `min(..., key=k)` keep the first extremal element
  (CPython replaces the current best only on a strict improvement); they are
  modelled by `pyFold` / `pyMaxByRank` / `pyMinByRank`.
* `raise ValueError` becomes `Except.error` (or, for `play_card`, whose
  claims concern the state left behind by a raise, a `GameState × Option String`
  pair carrying the state as it is at the moment the exception escapes).
* The process-global `random` module state is threaded explicitly as a list of
  pending `_randbelow` outputs; `random.seed(s)` replaces that state by a fixed
  deterministic function of `s` (`seedState`), and `random.shuffle` performs
  CPython's Fisher-Yates walk consuming one output per step.
-/

/-- Card suits, `'C' | 'D' | 'H' | 'S'` in `src/game/card.py`. -/
inductive Suit where
| C | D | H | S
deriving DecidableEq, Repr

/-- Card ranks, `'2'..'9' | 'T' | 'J' | 'Q' | 'K' | 'A'` in `src/game/card.py`. -/
inductive Rank where
| r2 | r3 | r4 | r5 | r6 | r7 | r8 | r9 | T | J | Q | K | A
deriving DecidableEq, Repr

/-- `rank_order` of `src/game/card.py`: 2 = 2, ..., T = 10, J = 11, Q = 12, K = 13, A = 14. -/
def rankOrder : Rank → Nat
| Rank.r2 => 2
| Rank.r3 => 3
| Rank.r4 => 4
| Rank.r5 => 5
| Rank.r6 => 6
| Rank.r7 => 7
| Rank.r8 => 8
| Rank.r9 => 9
| Rank.T => 10
| Rank.J => 11
| Rank.Q => 12
| Rank.K => 13
| Rank.A => 14

/-- `Card` of `src/game/card.py`: a (suit, rank) pair, equality componentwise. -/
structure Card where
  suit : Suit
  rank : Rank
deriving DecidableEq, Repr

/-- An arbitrary card used as the default of partial list accesses
(`getD` defaults); never reached in any claim. -/
def defaultCard : Card := ⟨Suit.C, Rank.r2⟩

/-- `Card.rank_value` of `src/game/card.py`. -/
def rankValue (c : Card) : Nat := rankOrder c.rank

/-- `Card.card_value` of `src/game/card.py`: `0` when the suit differs from the
led suit, else `rank_order[self.rank]`. -/
def cardValue (c : Card) (ledSuit : Suit) : Nat :=
  if c.suit ≠ ledSuit then 0 else rankOrder c.rank

/-- `BridgePlay.SUITS` of `src/game/game.py`. -/
def suitsList : List Suit := [Suit.C, Suit.D, Suit.H, Suit.S]

/-- `BridgePlay.RANKS` of `src/game/game.py`. -/
def ranksList : List Rank :=
  [Rank.r2, Rank.r3, Rank.r4, Rank.r5, Rank.r6, Rank.r7, Rank.r8, Rank.r9,
   Rank.T, Rank.J, Rank.Q, Rank.K, Rank.A]

/-- `BridgePlay.create_deck`: `[Card(suit, rank) for suit in SUITS for rank in RANKS]`. -/
def createDeck : List Card :=
  suitsList.flatMap (fun s => ranksList.map (fun r => ⟨s, r⟩))

/-- Python `max(iterable, key=key)` folded left keeping the first maximal
element: CPython replaces the running best only on a strict `>`. -/
def pyFold (key : Nat → Nat) (b : Nat) (l : List Nat) : Nat :=
  l.foldl (fun best i => if key i > key best then i else best) b

/-- `max(range(n), key=key)` for `n ≥ 1` (the initial best is element `0`). -/
def pyMaxRangeBy (key : Nat → Nat) (n : Nat) : Nat :=
  pyFold key 0 (List.range n)

/-- Python `max(cards, key=lambda c: c.rank_value())`; the empty case is a
Python `ValueError`, modelled by a default (never reached in the claims). -/
def pyMaxByRank (l : List Card) : Card :=
  match l with
  | [] => defaultCard
  | x :: xs => xs.foldl (fun best c => if rankValue c > rankValue best then c else best) x

/-- Python `min(cards, key=lambda c: c.rank_value())`; empty case as in
`pyMaxByRank`. -/
def pyMinByRank (l : List Card) : Card :=
  match l with
  | [] => defaultCard
  | x :: xs => xs.foldl (fun best c => if rankValue c < rankValue best then c else best) x

/-- `PlayObservation` of `src/game/game_state.py`. -/
structure PlayObservation where
  hand : List Card
  current_trick : List Card
  tricks_played : Nat
  tricks_won : Nat
  contract : Int
  legal_actions : List Card
  player_id : Fin 4
  dummy_hand : List Card
deriving Repr

/-- An agent (`BridgePlayAgent.get_action` of `src/game/agent.py`): a function
from observation to card. -/
def Policy : Type := PlayObservation → Card

/-- `GameResult` of `src/game/game_state.py`. -/
structure GameResult where
  lead_tricks : Nat
  defender_tricks : Nat
  contract : Int
  lead_score : Int
  defender_score : Int
  trick_history : List (List Card)
  observation_action_history : Fin 4 → List (PlayObservation × Card)

/-- The mutable state of a `BridgePlay` object (`src/game/game.py`): hands,
current trick, trick history, per-player trick counters, current player,
trick index, the stored seed and the per-player observation/action log. -/
structure GameState where
  contract : Int
  hands : Fin 4 → List Card
  current_trick : List Card
  trick_history : List (List Card)
  tricks_won : Fin 4 → Nat
  current_player : Fin 4
  trick_index : Nat
  seed : Option Int
  oaHistory : Fin 4 → List (PlayObservation × Card)

/-- `BridgePlay.__init__`: stores the contract and seed and zero-initialises
every piece of game state.  The constructor performs no validation of the
contract; the four agents are bound by the caller (their arity is fixed by the
signature) and are passed separately to `playGame` here. -/
def newGame (contract : Int) (seed : Option Int) : GameState :=
  { contract := contract
    hands := fun _ => []
    current_trick := []
    trick_history := []
    tricks_won := fun _ => 0
    current_player := 0
    trick_index := 0
    seed := seed
    oaHistory := fun _ => [] }

/-- `BridgePlay.get_legal_actions` of `src/game/game.py` as a function of the
player's hand (`self.hands[player_id]`) and `self.current_trick`: every card
when leading; else the led-suit cards when any exist, else the whole hand. -/
def getLegalActions (hand : List Card) (trick : List Card) : List Card :=
  match trick with
  | [] => hand
  | t0 :: _ =>
    let cardsInSuit := hand.filter (fun c => decide (c.suit = t0.suit))
    if cardsInSuit = [] then hand else cardsInSuit

/-- `BridgePlay.determine_trick_winner`: raises on an empty current trick, else
takes `max(range(len(trick)), key=pos -> trick[pos].card_value(led_suit))` and
reduces it modulo 4 (hence the `Fin 4` result, as in the source's `% 4`). -/
def determineTrickWinner (trick : List Card) : Except String (Fin 4) :=
  match trick with
  | [] => Except.error "No cards in current trick"
  | t0 :: rest =>
    let all := t0 :: rest
    let ledSuit := t0.suit
    let wpos := pyMaxRangeBy (fun pos => cardValue (all.getD pos defaultCard) ledSuit) all.length
    Except.ok ⟨wpos % 4, Nat.mod_lt _ (by decide)⟩

/-- `BridgePlay.play_card`: the two membership checks (`card in hand`,
`card in legal_actions`) happen before the mutations (`remove`, `append`), so a
raise escapes with the object unchanged; the returned pair carries the state as
it is when the call returns or the exception escapes. -/
def playCard (s : GameState) (p : Fin 4) (c : Card) : GameState × Option String :=
  if c ∉ s.hands p then
    (s, some "Card not in hand")
  else if c ∉ getLegalActions (s.hands p) s.current_trick then
    (s, some "Card is not a legal action")
  else
    ({ s with
        hands := fun i => if i = p then (s.hands p).erase c else s.hands i
        current_trick := s.current_trick ++ [c] }, none)

/-- `BridgePlay.get_observation`: the Dummy (player 1) is shown the Lead's
(player 3) hand as `dummy_hand`, everyone else the Dummy's; `tricks_won` is the
observing player's team total. -/
def getObservation (s : GameState) (p : Fin 4) : PlayObservation :=
  let dummyHand := if p = 1 then s.hands 3 else s.hands 1
  let teamTricks :=
    if p = 1 ∨ p = 3 then s.tricks_won 1 + s.tricks_won 3
    else s.tricks_won 0 + s.tricks_won 2
  { hand := s.hands p
    current_trick := s.current_trick
    tricks_played := s.trick_index
    tricks_won := teamTricks
    contract := s.contract
    legal_actions := getLegalActions (s.hands p) s.current_trick
    player_id := p
    dummy_hand := dummyHand }

/-- One iteration of the loop body of `BridgePlay.play_trick`: build the
observation, ask the current player's agent, log the pair, play the card and
advance `current_player` by one modulo 4. -/
def playTurn (agents : Fin 4 → Policy) (s : GameState) : Except String GameState :=
  let p := s.current_player
  let obs := getObservation s p
  let card := agents p obs
  let s1 := { s with oaHistory := fun i => if i = p then s.oaHistory p ++ [(obs, card)] else s.oaHistory i }
  match playCard s1 p card with
  | (_, some e) => Except.error e
  | (s2, none) => Except.ok { s2 with current_player := p + 1 }

/-- `BridgePlay.play_trick`: clear the current trick, run four turns, resolve
the winner, bump the winner's counter, record the trick, reset the current
player to Defender 1 (the winner-leads rule is disabled in the source) and
advance the trick index. -/
def playTrick (agents : Fin 4 → Policy) (s : GameState) : Except String GameState := do
  let s0 := { s with current_trick := [] }
  let s1 ← playTurn agents s0
  let s2 ← playTurn agents s1
  let s3 ← playTurn agents s2
  let s4 ← playTurn agents s3
  match determineTrickWinner s4.current_trick with
  | Except.error e => Except.error e
  | Except.ok w =>
    Except.ok { s4 with
      tricks_won := fun i => if i = w then s4.tricks_won i + 1 else s4.tricks_won i
      trick_history := s4.trick_history ++ [s4.current_trick]
      current_player := 0
      trick_index := s4.trick_index + 1 }

/-- The `for _ in range(13): self.play_trick()` loop of `BridgePlay.play_game`. -/
def playTricksN (agents : Fin 4 → Policy) : Nat → GameState → Except String GameState
| 0, s => Except.ok s
| n + 1, s =>
  match playTrick agents s with
  | Except.error e => Except.error e
  | Except.ok s1 => playTricksN agents n s1

/-- `BridgePlay.calculate_scores`: lead score `(lead_tricks - contract) * 20`,
defender score its negation. -/
def calculateScores (s : GameState) : Int × Int :=
  let leadTricks := s.tricks_won 1 + s.tricks_won 3
  let leadScore := ((leadTricks : Int) - s.contract) * 20
  (leadScore, -leadScore)

/-- Swap two positions of a list, as CPython's `x[i], x[j] = x[j], x[i]`. -/
def listSwap (l : List Card) (i j : Nat) : List Card :=
  let a := l.getD i defaultCard
  let b := l.getD j defaultCard
  (l.set i b).set j a

/-- The Fisher-Yates walk of CPython's `random.shuffle`:
`for i in reversed(range(1, len(x))): j = randbelow(i + 1); swap x[i], x[j]`.
The global generator is modelled as the list of its pending `_randbelow`
outputs, one consumed per step and reduced modulo `i + 1`. -/
def shuffleGo : Nat → List Card → List Nat → List Card × List Nat
| 0, l, g => (l, g)
| i + 1, l, g =>
  let d := g.headD 0
  let j := d % (i + 2)
  shuffleGo i (listSwap l (i + 1) j) g.tail

/-- `random.shuffle(deck)` on the current global generator state. -/
def pyShuffle (l : List Card) (g : List Nat) : List Card × List Nat :=
  shuffleGo (l.length - 1) l g

/-- `random.seed(s)`: the global Mersenne-Twister state becomes a fixed
deterministic function of the seed; the exact stream is irrelevant to every
claim, only that it depends on nothing but `s`. -/
def seedState (s : Int) : List Nat :=
  (List.range 64).map (fun k => (s.natAbs * 2654435761 + k * 97 + 1) % 4294967296)

/-- Python truthiness of the optional integer seed: `None` and `0` are falsy. -/
def pyTruthy : Option Int → Bool
| none => false
| some s => s != 0

/-- `BridgePlay.deal`: build the deck, reseed the global generator only when
the seed is truthy (`if seed:` — so `None` and `0` both skip reseeding), shuffle
on the global generator, and give player `i` cards `deck[i*13:(i+1)*13]`.
Returns the mutated game plus the advanced global generator state. -/
def deal (g : List Nat) (seed : Option Int) (s : GameState) : GameState × List Nat :=
  let deck := createDeck
  let gSeeded := if pyTruthy seed then seedState (seed.getD 0) else g
  let shuffled := pyShuffle deck gSeeded
  ({ s with hands := fun i => (shuffled.1.drop (i.val * 13)).take 13 }, shuffled.2)

/-- `BridgePlay.play_game`: deal with the stored seed, play 13 tricks, compute
the scores and assemble the `GameResult`.  The global generator state is
threaded through alongside the result. -/
def playGame (g : List Nat) (s : GameState) (agents : Fin 4 → Policy) :
    Except String GameResult × List Nat :=
  let dealt := deal g s.seed s
  let s1 := dealt.1
  match playTricksN agents 13 s1 with
  | Except.error e => (Except.error e, dealt.2)
  | Except.ok sf =>
    let leadTricks := sf.tricks_won 1 + sf.tricks_won 3
    let defenderTricks := sf.tricks_won 0 + sf.tricks_won 2
    let scores := calculateScores sf
    (Except.ok
      { lead_tricks := leadTricks
        defender_tricks := defenderTricks
        contract := sf.contract
        lead_score := scores.1
        defender_score := scores.2
        trick_history := sf.trick_history
        observation_action_history := sf.oaHistory }, dealt.2)

/-- `RuleBasedAgent._group_by_suit` of `src/agents/rule_based_agent.py`: a
Python dict mapping each suit to its cards, built by one pass appending to an
existing entry or inserting a fresh one; modelled as an insertion-ordered
association list (Python dicts iterate in insertion order). -/
def groupBySuit (cards : List Card) : List (Suit × List Card) :=
  cards.foldl
    (fun acc c =>
      if (acc.lookup c.suit).isSome then
        acc.map (fun p => if p.1 = c.suit then (p.1, p.2 ++ [c]) else p)
      else acc ++ [(c.suit, [c])])
    []

/-- Python `d.get(suit, [])` on a grouped dict. -/
def dictGet (d : List (Suit × List Card)) (s : Suit) : List Card :=
  (d.lookup s).getD []

/-- `RuleBasedAgent.get_action_defender1`: lead an Ace in a suit where the
visible hand holds at most 2 cards, else any Ace; else a King from a suit also
holding the Queen; else the highest card of the suit maximising the weakness
score `(4 - count) * 10 + (56 - strength)` over the visible hand; else the
highest card overall.  `hand` is `observation.legal_actions` as in the source.
The source guards `_group_by_suit(dummy_hand) if dummy_hand else` an empty
dict; since grouping an empty list is the empty dict, the guard is dropped.
Python raises on `max` of an empty hand; that dead branch is a default here. -/
def getActionDefender1 (observation : PlayObservation) : Card :=
  let hand := observation.legal_actions
  let dummyHand := observation.dummy_hand
  let dummySuits := groupBySuit dummyHand
  let mySuits := groupBySuit hand
  let aces := hand.filter (fun c => decide (c.rank = Rank.A))
  if aces = [] then
    match mySuits.find? (fun p =>
        (p.2.any (fun c => decide (c.rank = Rank.K))) &&
        (p.2.any (fun c => decide (c.rank = Rank.Q)))) with
    | some p => (p.2.find? (fun c => decide (c.rank = Rank.K))).getD defaultCard
    | none =>
      let best := mySuits.foldl
        (fun (acc : Option Suit × Int) p =>
          let dummyCards := dictGet dummySuits p.1
          let dummyStrength : Int := (dummyCards.map (fun c => (rankValue c : Int))).sum
          let dummyCount : Int := dummyCards.length
          let weaknessScore : Int := (4 - dummyCount) * 10 + (56 - dummyStrength)
          if weaknessScore > acc.2 then (some p.1, weaknessScore) else acc)
        (none, -1)
      match best.1 with
      | some bestSuit => pyMaxByRank (dictGet mySuits bestSuit)
      | none => pyMaxByRank hand
  else
    match aces.find? (fun ace => decide ((dictGet dummySuits ace.suit).length ≤ 2)) with
    | some a => a
    | none => aces.headD defaultCard

/-- The simplest legal deterministic policy: always play the first card of the
legal-action list. -/
def polHead : Fin 4 → Policy := fun _ obs => obs.legal_actions.headD defaultCard

/-- An ambient global-generator state for two consecutive games: the first
shuffle consumes the 51 zeros, the second the 51 ones. -/
def g0seq : List Nat := List.replicate 51 0 ++ List.replicate 51 1

/-- First game constructed with seed 0 and played on the ambient generator
state `g0seq` (Python never reseeds here, since `if seed:` is false for 0). -/
def run1 : Except String GameResult × List Nat :=
  playGame g0seq (newGame 1 (some 0)) polHead

/-- Second game, identical construction (seed 0, same policies), played on the
generator state the first game left behind — as happens when two seed-0 games
run in the same Python process. -/
def run2 : Except String GameResult × List Nat :=
  playGame run1.2 (newGame 1 (some 0)) polHead

/-- A concrete completed trick (5C, AC, 2D, KC) used as a witness input. -/
def trickC1 : List Card :=
  [⟨Suit.C, Rank.r5⟩, ⟨Suit.C, Rank.A⟩, ⟨Suit.D, Rank.r2⟩, ⟨Suit.C, Rank.K⟩]

/-- A Defender-1 observation holding two Aces: the ace of clubs comes first in
hand order, while diamonds is the suit holding Ace-King-Queen with the
partner-visible hand empty. -/
def obsTwoAces : PlayObservation :=
  { hand := [⟨Suit.C, Rank.A⟩, ⟨Suit.D, Rank.A⟩, ⟨Suit.D, Rank.K⟩, ⟨Suit.D, Rank.Q⟩]
    current_trick := []
    tricks_played := 0
    tricks_won := 0
    contract := 3
    legal_actions := [⟨Suit.C, Rank.A⟩, ⟨Suit.D, Rank.A⟩, ⟨Suit.D, Rank.K⟩, ⟨Suit.D, Rank.Q⟩]
    player_id := 0
    dummy_hand := [] }

/-- A Defender-1 observation with a single Ace sitting in the same suit as the
King and Queen, the partner-visible hand holding no hearts. -/
def obsOneAce : PlayObservation :=
  { hand := [⟨Suit.H, Rank.A⟩, ⟨Suit.H, Rank.K⟩, ⟨Suit.H, Rank.Q⟩, ⟨Suit.C, Rank.r7⟩]
    current_trick := []
    tricks_played := 0
    tricks_won := 0
    contract := 3
    legal_actions := [⟨Suit.H, Rank.A⟩, ⟨Suit.H, Rank.K⟩, ⟨Suit.H, Rank.Q⟩, ⟨Suit.C, Rank.r7⟩]
    player_id := 0
    dummy_hand := [⟨Suit.C, Rank.r5⟩, ⟨Suit.D, Rank.r6⟩] }

/-! ## General helper lemmas -/

/-- The head of a non-empty list (with default) is a member. -/
lemma headD_mem {α : Type} {l : List α} (h : l ≠ []) (d : α) : l.headD d ∈ l := by
  cases l with
  | nil => exact absurd rfl h
  | cons a t => exact List.mem_cons_self a t

/-- Every legal action is drawn from the hand. -/
lemma getLegalActions_subset {hand trick : List Card} {c : Card}
    (h : c ∈ getLegalActions hand trick) : c ∈ hand := by
  cases trick with
  | nil => exact h
  | cons t0 ts =>
    simp only [getLegalActions] at h
    split at h
    · exact h
    · exact (List.mem_filter.mp h).1

/-- The legal-action list of a non-empty hand is non-empty. -/
lemma getLegalActions_ne_nil {hand trick : List Card} (h : hand ≠ []) :
    getLegalActions hand trick ≠ [] := by
  cases trick with
  | nil => exact h
  | cons t0 ts =>
    simp only [getLegalActions]
    split
    · exact h
    · assumption

/-- A positive `card_value` forces the card's suit to be the led suit. -/
lemma cardValue_pos_suit {c : Card} {led : Suit} (h : 0 < cardValue c led) :
    c.suit = led := by
  by_contra hne
  simp [cardValue, hne] at h

/-- On a led-suit card, `card_value` is the rank value. -/
lemma cardValue_of_suit {c : Card} {led : Suit} (h : c.suit = led) :
    cardValue c led = rankValue c := by
  simp [cardValue, h, rankValue]

/-- Every rank value is at least 2. -/
lemma two_le_rankOrder (r : Rank) : 2 ≤ rankOrder r := by
  cases r <;> simp [rankOrder]

/-- `rank_order` is injective on ranks. -/
lemma rankOrder_inj {ra rb : Rank} (h : rankOrder ra = rankOrder rb) : ra = rb := by
  cases ra <;> cases rb <;> simp_all [rankOrder]

/-- Cards with equal suit and equal rank value are equal. -/
lemma card_eq_of_suit_rankValue {a b : Card} (hs : a.suit = b.suit)
    (hr : rankValue a = rankValue b) : a = b := by
  obtain ⟨sa, ra⟩ := a
  obtain ⟨sb, rb⟩ := b
  simp only [rankValue] at hr
  cases hs
  cases rankOrder_inj hr
  rfl

/-- The Python `max`-style fold returns the initial best or a list element. -/
lemma pyFold_cases (key : Nat → Nat) :
    ∀ (l : List Nat) (b : Nat), pyFold key b l = b ∨ pyFold key b l ∈ l := by
  intro l
  induction l with
  | nil => intro b; exact Or.inl rfl
  | cons a t ih =>
    intro b
    have hstep : pyFold key b (a :: t) = pyFold key (if key a > key b then a else b) t := rfl
    rcases ih (if key a > key b then a else b) with h | h
    · rw [hstep, h]
      split
      · exact Or.inr (List.mem_cons_self a t)
      · exact Or.inl rfl
    · exact Or.inr (List.mem_cons_of_mem a (hstep ▸ h))

/-- The fold never decreases the key of the running best. -/
lemma pyFold_le (key : Nat → Nat) :
    ∀ (l : List Nat) (b : Nat), key b ≤ key (pyFold key b l) := by
  intro l
  induction l with
  | nil => intro b; exact Nat.le_refl _
  | cons a t ih =>
    intro b
    have hstep : pyFold key b (a :: t) = pyFold key (if key a > key b then a else b) t := rfl
    rw [hstep]
    refine Nat.le_trans ?_ (ih (if key a > key b then a else b))
    split
    · exact Nat.le_of_lt (by assumption)
    · exact Nat.le_refl _

/-- The fold's result dominates every list element's key. -/
lemma pyFold_ge_mem (key : Nat → Nat) :
    ∀ (l : List Nat) (b : Nat) (i : Nat), i ∈ l → key i ≤ key (pyFold key b l) := by
  intro l
  induction l with
  | nil => intro b i hi; exact absurd hi (List.not_mem_nil i)
  | cons a t ih =>
    intro b i hi
    have hstep : pyFold key b (a :: t) = pyFold key (if key a > key b then a else b) t := rfl
    rw [hstep]
    rcases List.mem_cons.mp hi with h | h
    · subst h
      refine Nat.le_trans ?_ (pyFold_le key t (if key i > key b then i else b))
      split
      · exact Nat.le_refl _
      · exact Nat.le_of_not_lt (by assumption)
    · exact ih _ i h

/-- `max(range(n), key=key)` lands in `range n` and dominates all keys. -/
lemma pyMaxRangeBy_spec (key : Nat → Nat) (n : Nat) (hn : 0 < n) :
    pyMaxRangeBy key n < n ∧ ∀ i, i < n → key i ≤ key (pyMaxRangeBy key n) := by
  constructor
  · rcases pyFold_cases key (List.range n) 0 with h | h
    · rw [pyMaxRangeBy, h]; exact hn
    · exact List.mem_range.mp h
  · intro i hi
    exact pyFold_ge_mem key (List.range n) 0 i (List.mem_range.mpr hi)

/-- A non-empty trick always resolves to some winner. -/
lemma determineTrickWinner_ok {trick : List Card} (h : trick ≠ []) :
    ∃ w : Fin 4, determineTrickWinner trick = Except.ok w := by
  cases trick with
  | nil => exact absurd rfl h
  | cons t0 rest => exact ⟨_, rfl⟩

/-- Lookup of a cons whose head carries the looked-up key. -/
lemma lookup_cons_self {k : Suit} {v : List Card} {tl : List (Suit × List Card)} :
    List.lookup k ((k, v) :: tl) = some v := by
  simp [List.lookup]

/-- Lookup of a cons whose head carries a different key. -/
lemma lookup_cons_of_ne {a k : Suit} (h : ¬ a = k) (v : List Card)
    (tl : List (Suit × List Card)) :
    List.lookup a ((k, v) :: tl) = List.lookup a tl := by
  have hb : (a == k) = false := by
    simpa using h
  simp [List.lookup, hb]

/-- Looking up a key after bumping the entry of `c.suit` bumps exactly the
looked-up value when the key is `c.suit`. -/
lemma lookup_bump (c : Card) (s : Suit) :
    ∀ (acc : List (Suit × List Card)),
      List.lookup s (acc.map (fun p => if p.1 = c.suit then (p.1, p.2 ++ [c]) else p)) =
      (List.lookup s acc).map (fun v => if s = c.suit then v ++ [c] else v) := by
  intro acc
  induction acc with
  | nil => rfl
  | cons hd tl ih =>
    obtain ⟨k, v⟩ := hd
    simp only [List.map_cons]
    by_cases hkc : k = c.suit
    · rw [if_pos hkc]
      by_cases hsk : s = k
      · subst hsk
        rw [lookup_cons_self, lookup_cons_self]
        simp [hkc]
      · rw [lookup_cons_of_ne hsk, lookup_cons_of_ne hsk, ih]
    · rw [if_neg hkc]
      by_cases hsk : s = k
      · subst hsk
        rw [lookup_cons_self, lookup_cons_self]
        simp [hkc]
      · rw [lookup_cons_of_ne hsk, lookup_cons_of_ne hsk, ih]

/-- Lookup distributes over append when the key is found on the left. -/
lemma lookup_append_some {s : Suit} {v : List Card} :
    ∀ {l1 : List (Suit × List Card)} (l2 : List (Suit × List Card)),
      List.lookup s l1 = some v → List.lookup s (l1 ++ l2) = some v := by
  intro l1
  induction l1 with
  | nil => intro l2 h; exact absurd h (by simp)
  | cons hd tl ih =>
    intro l2 h
    obtain ⟨k, w⟩ := hd
    rw [List.cons_append]
    by_cases hsk : s = k
    · subst hsk
      rw [lookup_cons_self] at h ⊢
      exact h
    · rw [lookup_cons_of_ne hsk] at h ⊢
      exact ih l2 h

/-- Lookup falls through to the right list when the key is absent on the left. -/
lemma lookup_append_none {s : Suit} :
    ∀ {l1 : List (Suit × List Card)} (l2 : List (Suit × List Card)),
      List.lookup s l1 = none → List.lookup s (l1 ++ l2) = List.lookup s l2 := by
  intro l1
  induction l1 with
  | nil => intro l2 _; rfl
  | cons hd tl ih =>
    intro l2 h
    obtain ⟨k, w⟩ := hd
    rw [List.cons_append]
    by_cases hsk : s = k
    · subst hsk
      rw [lookup_cons_self] at h
      exact absurd h (by simp)
    · rw [lookup_cons_of_ne hsk] at h ⊢
      exact ih l2 h

/-- One `_group_by_suit` step: inserting a card appends it to the bucket of its
own suit and leaves every other bucket unchanged. -/
lemma dictGet_step (acc : List (Suit × List Card)) (c : Card) (s : Suit) :
    dictGet (if (acc.lookup c.suit).isSome then
        acc.map (fun p => if p.1 = c.suit then (p.1, p.2 ++ [c]) else p)
      else acc ++ [(c.suit, [c])]) s
    = if c.suit = s then dictGet acc s ++ [c] else dictGet acc s := by
  by_cases hls : (acc.lookup c.suit).isSome
  · rw [if_pos hls]
    unfold dictGet
    rw [lookup_bump]
    by_cases hcs : c.suit = s
    · rw [if_pos hcs]
      rw [hcs] at hls
      obtain ⟨v, hv⟩ := Option.isSome_iff_exists.mp hls
      rw [hv]
      simp [hcs.symm]
    · rw [if_neg hcs]
      have hsc : ¬ (s = c.suit) := fun h => hcs h.symm
      cases hlk : List.lookup s acc with
      | none => simp [hlk]
      | some v => simp [hlk, hsc]
  · rw [if_neg hls]
    have hnone : List.lookup c.suit acc = none := Option.not_isSome_iff_eq_none.mp hls
    unfold dictGet
    by_cases hcs : c.suit = s
    · subst hcs
      rw [lookup_append_none _ hnone, hnone]
      simp [List.lookup]
    · have hsc : ¬ (s = c.suit) := fun h => hcs h.symm
      rw [if_neg hcs]
      cases hlk : List.lookup s acc with
      | none =>
        rw [lookup_append_none _ hlk, lookup_cons_of_ne hsc]
        rfl
      | some v =>
        rw [lookup_append_some _ hlk]

/-- The `_group_by_suit` fold, started from any accumulator, extends each
bucket by that suit's cards in hand order. -/
lemma dictGet_groupBySuit_core (s : Suit) :
    ∀ (l : List Card) (acc : List (Suit × List Card)),
      dictGet (l.foldl (fun acc c =>
        if (acc.lookup c.suit).isSome then
          acc.map (fun p => if p.1 = c.suit then (p.1, p.2 ++ [c]) else p)
        else acc ++ [(c.suit, [c])]) acc) s
      = dictGet acc s ++ l.filter (fun c => decide (c.suit = s)) := by
  intro l
  induction l with
  | nil => intro acc; simp
  | cons c t ih =>
    intro acc
    rw [List.foldl_cons, ih, dictGet_step]
    by_cases hcs : c.suit = s
    · simp [List.filter_cons, hcs]
    · simp [List.filter_cons, hcs]

/-- `_group_by_suit(cards).get(s, [])` is exactly the cards of suit `s`, in
order. -/
lemma dictGet_groupBySuit (cards : List Card) (s : Suit) :
    dictGet (groupBySuit cards) s = cards.filter (fun c => decide (c.suit = s)) := by
  have h := dictGet_groupBySuit_core s cards []
  simpa [groupBySuit, dictGet] using h

/-- When the legal actions contain at least one Ace, `get_action_defender1`
reduces to the ace-selection branch. -/
lemma getActionDefender1_aces {obs : PlayObservation}
    (hne : obs.legal_actions.filter (fun c => decide (c.rank = Rank.A)) ≠ []) :
    getActionDefender1 obs =
      match (obs.legal_actions.filter (fun c => decide (c.rank = Rank.A))).find?
          (fun ace => decide ((dictGet (groupBySuit obs.dummy_hand) ace.suit).length ≤ 2)) with
      | some a => a
      | none => (obs.legal_actions.filter (fun c => decide (c.rank = Rank.A))).headD defaultCard := by
  simp only [getActionDefender1]
  rw [if_neg hne]

/-- A list of length `n ≠ 0` is non-empty. -/
lemma ne_nil_of_length_eq {l : List Card} {n : Nat} (h : l.length = n) (hn : n ≠ 0) :
    l ≠ [] := by
  intro hnil
  subst hnil
  exact hn h.symm

/-- `play_card` on a legal card: no error, the card moves from hand to trick. -/
lemma playCard_ok {s : GameState} {p : Fin 4} {c : Card}
    (h2 : c ∈ getLegalActions (s.hands p) s.current_trick) :
    playCard s p c =
      ({ s with
          hands := fun i => if i = p then (s.hands p).erase c else s.hands i
          current_trick := s.current_trick ++ [c] }, none) := by
  have h1 : c ∈ s.hands p := getLegalActions_subset h2
  simp [playCard, h1, h2]

/-- One successful engine turn, written as an explicit state transformation:
the current player's policy card is logged, erased from the hand and appended
to the trick, and the turn passes to the next seat. -/
lemma playTurn_eq (agents : Fin 4 → Policy) (s : GameState)
    (hcardmem : agents s.current_player (getObservation s s.current_player)
      ∈ getLegalActions (s.hands s.current_player) s.current_trick) :
    playTurn agents s = Except.ok
      { s with
        hands := fun i => if i = s.current_player
          then (s.hands s.current_player).erase
            (agents s.current_player (getObservation s s.current_player))
          else s.hands i
        current_trick := s.current_trick ++
          [agents s.current_player (getObservation s s.current_player)]
        current_player := s.current_player + 1
        oaHistory := fun i => if i = s.current_player
          then s.oaHistory s.current_player ++
            [(getObservation s s.current_player,
              agents s.current_player (getObservation s s.current_player))]
          else s.oaHistory i } := by
  have hinhand := getLegalActions_subset hcardmem
  simp only [playTurn, playCard]
  rw [if_neg (not_not_intro hinhand), if_neg (not_not_intro hcardmem)]

/-- A successful turn: existence form with the state facts the trick-level
induction needs. -/
lemma playTurn_ok (agents : Fin 4 → Policy)
    (hleg : ∀ (p : Fin 4) (obs : PlayObservation),
      obs.legal_actions ≠ [] → agents p obs ∈ obs.legal_actions)
    (s : GameState) (hne : s.hands s.current_player ≠ []) :
    ∃ s2 : GameState, playTurn agents s = Except.ok s2 ∧
      (∀ q : Fin 4, (s2.hands q).length =
        if q = s.current_player then (s.hands q).length - 1 else (s.hands q).length) ∧
      s2.current_trick.length = s.current_trick.length + 1 ∧
      s2.tricks_won = s.tricks_won ∧
      s2.contract = s.contract ∧
      s2.current_player = s.current_player + 1 ∧
      s2.trick_index = s.trick_index ∧
      s2.trick_history = s.trick_history := by
  have hobs_legal : (getObservation s s.current_player).legal_actions
      = getLegalActions (s.hands s.current_player) s.current_trick := rfl
  have hnn : (getObservation s s.current_player).legal_actions ≠ [] := by
    rw [hobs_legal]
    exact getLegalActions_ne_nil hne
  have hcardmem : agents s.current_player (getObservation s s.current_player)
      ∈ getLegalActions (s.hands s.current_player) s.current_trick := by
    rw [← hobs_legal]
    exact hleg _ _ hnn
  have hinhand : agents s.current_player (getObservation s s.current_player)
      ∈ s.hands s.current_player := getLegalActions_subset hcardmem
  refine ⟨_, playTurn_eq agents s hcardmem, ?_, ?_, rfl, rfl, rfl, rfl, rfl⟩
  · intro q
    by_cases hq : q = s.current_player
    · subst hq
      simp only [if_pos rfl]
      exact List.length_erase_of_mem hinhand
    · simp only [if_neg hq]
  · simp

/-- The total trick count over the four seats rises by exactly one when any
single winner's counter is bumped. -/
lemma bump_sum (f : Fin 4 → Nat) (w : Fin 4) :
    (if (0 : Fin 4) = w then f 0 + 1 else f 0) +
    (if (1 : Fin 4) = w then f 1 + 1 else f 1) +
    (if (2 : Fin 4) = w then f 2 + 1 else f 2) +
    (if (3 : Fin 4) = w then f 3 + 1 else f 3)
    = f 0 + f 1 + f 2 + f 3 + 1 := by
  fin_cases w <;> simp <;> omega

/-- Monadic bind on a successful `Except` computation just continues. -/
lemma except_bind_ok {α β : Type} (a : α) (f : α → Except String β) :
    (Except.ok a : Except String α) >>= f = f a := rfl

/-- One full trick under legal policies: all four turns succeed, every hand
shrinks by one, the team totals rise by one and the lead returns to seat 0. -/
lemma playTrick_ok (agents : Fin 4 → Policy)
    (hleg : ∀ (p : Fin 4) (obs : PlayObservation),
      obs.legal_actions ≠ [] → agents p obs ∈ obs.legal_actions)
    (s : GameState) (n : Nat)
    (hh : ∀ q : Fin 4, (s.hands q).length = n) (hn : n ≠ 0)
    (hp : s.current_player = 0) :
    ∃ sx : GameState, playTrick agents s = Except.ok sx ∧
      (∀ q : Fin 4, (sx.hands q).length = n - 1) ∧
      (sx.tricks_won 0 + sx.tricks_won 1 + sx.tricks_won 2 + sx.tricks_won 3
        = s.tricks_won 0 + s.tricks_won 1 + s.tricks_won 2 + s.tricks_won 3 + 1) ∧
      sx.contract = s.contract ∧
      sx.current_player = 0 := by
  have hp0 : ({ s with current_trick := [] } : GameState).current_player = 0 := hp
  have hh0 : ∀ q : Fin 4, (({ s with current_trick := [] } : GameState).hands q).length = n := hh
  obtain ⟨s1, e1, l1, t1, w1, c1, p1, i1, h1⟩ :=
    playTurn_ok agents hleg { s with current_trick := [] }
      (by rw [hp0]; exact ne_nil_of_length_eq (hh0 0) hn)
  have hl1 : ∀ q : Fin 4, (s1.hands q).length = if q = 0 then n - 1 else n := by
    intro q
    rw [l1 q, hp0, hh0 q]
  have hp1 : s1.current_player = 1 := by
    rw [p1, hp0]
    rfl
  obtain ⟨s2, e2, l2, t2, w2, c2, p2, i2, h2⟩ :=
    playTurn_ok agents hleg s1
      (by rw [hp1]; exact ne_nil_of_length_eq (by rw [hl1 1]; rfl) hn)
  have hl2 : ∀ q : Fin 4, (s2.hands q).length = if q = 0 ∨ q = 1 then n - 1 else n := by
    intro q
    rw [l2 q, hp1, hl1 q]
    by_cases h0 : q = 0
    · simp [h0]
    · by_cases hq1 : q = 1 <;> simp [h0, hq1]
  have hp2 : s2.current_player = 2 := by
    rw [p2, hp1]
    rfl
  obtain ⟨s3, e3, l3, t3, w3, c3, p3, i3, h3⟩ :=
    playTurn_ok agents hleg s2
      (by rw [hp2]; exact ne_nil_of_length_eq (by rw [hl2 2]; rfl) hn)
  have hl3 : ∀ q : Fin 4, (s3.hands q).length = if q = 0 ∨ q = 1 ∨ q = 2 then n - 1 else n := by
    intro q
    rw [l3 q, hp2, hl2 q]
    by_cases h0 : q = 0
    · simp [h0]
    · by_cases hq1 : q = 1
      · simp [h0, hq1]
      · by_cases hq2 : q = 2 <;> simp [h0, hq1, hq2]
  have hp3 : s3.current_player = 3 := by
    rw [p3, hp2]
    rfl
  obtain ⟨s4, e4, l4, t4, w4, c4, p4, i4, h4⟩ :=
    playTurn_ok agents hleg s3
      (by rw [hp3]; exact ne_nil_of_length_eq (by rw [hl3 3]; rfl) hn)
  have hl4 : ∀ q : Fin 4, (s4.hands q).length = n - 1 := by
    intro q
    rw [l4 q, hp3, hl3 q]
    by_cases h0 : q = 0
    · simp [h0]
    · by_cases hq1 : q = 1
      · simp [h0, hq1]
      · by_cases hq2 : q = 2
        · simp [h0, hq1, hq2]
        · have hq3 : q = 3 := by omega
          simp [h0, hq1, hq2, hq3]
  have htr4 : s4.current_trick.length = 4 := by
    rw [t4, t3, t2, t1]
    rfl
  obtain ⟨w, hw⟩ := determineTrickWinner_ok
    (ne_nil_of_length_eq htr4 (by norm_num))
  refine ⟨{ s4 with
      tricks_won := fun i => if i = w then s4.tricks_won i + 1 else s4.tricks_won i
      trick_history := s4.trick_history ++ [s4.current_trick]
      current_player := 0
      trick_index := s4.trick_index + 1 }, ?_, ?_, ?_, ?_, rfl⟩
  · simp only [playTrick]
    rw [e1]
    simp only [except_bind_ok]
    rw [e2]
    simp only [except_bind_ok]
    rw [e3]
    simp only [except_bind_ok]
    rw [e4]
    simp only [except_bind_ok]
    rw [hw]
  · intro q
    show (s4.hands q).length = n - 1
    exact hl4 q
  · show (if (0 : Fin 4) = w then s4.tricks_won 0 + 1 else s4.tricks_won 0) +
        (if (1 : Fin 4) = w then s4.tricks_won 1 + 1 else s4.tricks_won 1) +
        (if (2 : Fin 4) = w then s4.tricks_won 2 + 1 else s4.tricks_won 2) +
        (if (3 : Fin 4) = w then s4.tricks_won 3 + 1 else s4.tricks_won 3)
        = s.tricks_won 0 + s.tricks_won 1 + s.tricks_won 2 + s.tricks_won 3 + 1
    rw [bump_sum s4.tricks_won w, w4, w3, w2, w1]
  · show s4.contract = s.contract
    rw [c4, c3, c2, c1]

/-- Thirteen tricks in a row under legal policies: hands shrink from `13 - k`
to `13 - (k + m)`, the total trick count rises by `m`, the contract is
preserved. -/
lemma playTricksN_ok (agents : Fin 4 → Policy)
    (hleg : ∀ (p : Fin 4) (obs : PlayObservation),
      obs.legal_actions ≠ [] → agents p obs ∈ obs.legal_actions) :
    ∀ (m : Nat) (s : GameState) (k : Nat),
      (∀ q : Fin 4, (s.hands q).length = 13 - k) →
      s.current_player = 0 →
      k + m ≤ 13 →
      ∃ sx : GameState, playTricksN agents m s = Except.ok sx ∧
        (∀ q : Fin 4, (sx.hands q).length = 13 - (k + m)) ∧
        (sx.tricks_won 0 + sx.tricks_won 1 + sx.tricks_won 2 + sx.tricks_won 3
          = s.tricks_won 0 + s.tricks_won 1 + s.tricks_won 2 + s.tricks_won 3 + m) ∧
        sx.contract = s.contract := by
  intro m
  induction m with
  | zero =>
    intro s k hh hp hk
    exact ⟨s, rfl, by simpa using hh, by omega, rfl⟩
  | succ m ih =>
    intro s k hh hp hk
    obtain ⟨s1, e1, hlen1, hsum1, hcon1, hcp1⟩ :=
      playTrick_ok agents hleg s (13 - k) hh (by omega) hp
    obtain ⟨sx, ex, hlenx, hsumx, hconx⟩ :=
      ih s1 (k + 1) (fun q => by rw [hlen1 q]; omega) hcp1 (by omega)
    refine ⟨sx, ?_, ?_, ?_, ?_⟩
    · simp only [playTricksN]
      rw [e1]
      exact ex
    · intro q
      rw [hlenx q]
      congr 1
      omega
    · rw [hsumx, hsum1]
      omega
    · rw [hconx, hcon1]

/-- `listSwap` preserves length. -/
lemma length_listSwap (l : List Card) (i j : Nat) :
    (listSwap l i j).length = l.length := by
  simp [listSwap]

/-- The shuffle walk preserves length. -/
lemma length_shuffleGo : ∀ (i : Nat) (l : List Card) (g : List Nat),
    (shuffleGo i l g).1.length = l.length := by
  intro i
  induction i with
  | zero => intro l g; rfl
  | succ k ih =>
    intro l g
    simp only [shuffleGo]
    rw [ih, length_listSwap]

/-- Every dealt hand holds exactly 13 cards. -/
lemma deal_hands_length (g : List Nat) (seed : Option Int) (s : GameState) (q : Fin 4) :
    (((deal g seed s).1).hands q).length = 13 := by
  have hlen : (pyShuffle createDeck
      (if pyTruthy seed then seedState (seed.getD 0) else g)).1.length = 52 := by
    unfold pyShuffle
    rw [length_shuffleGo]
    decide
  simp only [deal]
  rw [List.length_take, List.length_drop, hlen]
  fin_cases q <;> decide

/-! ## Claim theorems -/

/-- C2: `get_legal_actions` returns the whole hand when the trick is empty;
with a led suit present in the hand it returns exactly the hand's cards of the
led suit; otherwise the whole hand; and it is non-empty whenever the hand is. -/
theorem claim2_legal_actions (hand trick : List Card) :
    (trick = [] → getLegalActions hand trick = hand) ∧
    (∀ t0 ts, trick = t0 :: ts → (∃ c ∈ hand, c.suit = t0.suit) →
      ∀ c : Card, c ∈ getLegalActions hand trick ↔ (c ∈ hand ∧ c.suit = t0.suit)) ∧
    (∀ t0 ts, trick = t0 :: ts → (¬ ∃ c ∈ hand, c.suit = t0.suit) →
      getLegalActions hand trick = hand) ∧
    (hand ≠ [] → getLegalActions hand trick ≠ []) := by
  refine ⟨?_, ?_, ?_, fun h => getLegalActions_ne_nil h⟩
  · intro h; subst h; rfl
  · intro t0 ts h hex c
    subst h
    obtain ⟨c0, hc0, hc0s⟩ := hex
    have hne : hand.filter (fun c => decide (c.suit = t0.suit)) ≠ [] := by
      intro hnil
      exact (List.filter_eq_nil_iff.mp hnil c0 hc0) (by simpa using hc0s)
    simp only [getLegalActions, if_neg hne]
    constructor
    · intro hc
      have := List.mem_filter.mp hc
      exact ⟨this.1, by simpa using this.2⟩
    · intro hc
      exact List.mem_filter.mpr ⟨hc.1, by simpa using hc.2⟩
  · intro t0 ts h hnone
    subst h
    have hnil : hand.filter (fun c => decide (c.suit = t0.suit)) = [] := by
      rw [List.filter_eq_nil_iff]
      intro a ha
      simp only [decide_eq_true_eq]
      exact fun hs => hnone ⟨a, ha, hs⟩
    simp only [getLegalActions, if_pos hnil]

/-- Witness for C2 at concrete inputs: an empty trick returns the whole hand,
following suit is forced when possible, and the result is non-empty. -/
theorem claim2_witness :
    (getLegalActions [⟨Suit.C, Rank.r3⟩] [] = [⟨Suit.C, Rank.r3⟩]) ∧
    ((⟨Suit.C, Rank.r3⟩ : Card) ∈
        getLegalActions [⟨Suit.C, Rank.r3⟩, ⟨Suit.D, Rank.r4⟩] [⟨Suit.C, Rank.r2⟩] ↔
      ((⟨Suit.C, Rank.r3⟩ : Card) ∈ ([⟨Suit.C, Rank.r3⟩, ⟨Suit.D, Rank.r4⟩] : List Card) ∧
        Suit.C = Suit.C)) ∧
    getLegalActions [⟨Suit.H, Rank.r5⟩] [⟨Suit.C, Rank.r2⟩] ≠ [] := by
  refine ⟨(claim2_legal_actions [⟨Suit.C, Rank.r3⟩] []).1 rfl, ?_, ?_⟩
  · exact (claim2_legal_actions [⟨Suit.C, Rank.r3⟩, ⟨Suit.D, Rank.r4⟩]
      [⟨Suit.C, Rank.r2⟩]).2.1 ⟨Suit.C, Rank.r2⟩ [] rfl
      ⟨⟨Suit.C, Rank.r3⟩, by decide, rfl⟩ ⟨Suit.C, Rank.r3⟩
  · exact (claim2_legal_actions [⟨Suit.H, Rank.r5⟩] [⟨Suit.C, Rank.r2⟩]).2.2.2 (by decide)

/-- C3: `play_card` raises exactly when the card is missing from the player's
hand or from the legal-action list; on success it appends exactly the supplied
card to the trick and removes exactly it from the hand (no substitution). -/
theorem claim3_play_card (s : GameState) (p : Fin 4) (c : Card) :
    ((playCard s p c).2.isSome = true ↔
      (c ∉ s.hands p ∨ c ∉ getLegalActions (s.hands p) s.current_trick)) ∧
    ((playCard s p c).2 = none →
      (playCard s p c).1.current_trick = s.current_trick ++ [c] ∧
      (playCard s p c).1.hands p = (s.hands p).erase c) := by
  by_cases h1 : c ∈ s.hands p
  · by_cases h2 : c ∈ getLegalActions (s.hands p) s.current_trick
    · simp [playCard, h1, h2]
    · simp [playCard, h1, h2]
  · simp [playCard, h1]

/-- Witness for C3: a concrete in-hand but off-suit card raises; a concrete
legal card is itself appended to the trick. -/
theorem claim3_witness :
    ((playCard
        { contract := 1, hands := fun i => if i = 0 then [⟨Suit.C, Rank.r2⟩, ⟨Suit.D, Rank.r3⟩] else [],
          current_trick := [⟨Suit.C, Rank.r4⟩], trick_history := [], tricks_won := fun _ => 0,
          current_player := 0, trick_index := 0, seed := none, oaHistory := fun _ => [] }
        0 ⟨Suit.D, Rank.r3⟩).2.isSome = true) ∧
    ((playCard
        { contract := 1, hands := fun i => if i = 0 then [⟨Suit.C, Rank.r2⟩, ⟨Suit.D, Rank.r3⟩] else [],
          current_trick := [⟨Suit.C, Rank.r4⟩], trick_history := [], tricks_won := fun _ => 0,
          current_player := 0, trick_index := 0, seed := none, oaHistory := fun _ => [] }
        0 ⟨Suit.C, Rank.r2⟩).1.current_trick = [⟨Suit.C, Rank.r4⟩, ⟨Suit.C, Rank.r2⟩]) := by
  constructor
  · exact (claim3_play_card _ 0 ⟨Suit.D, Rank.r3⟩).1.mpr (Or.inr (by decide))
  · exact ((claim3_play_card _ 0 ⟨Suit.C, Rank.r2⟩).2 (by decide)).1.trans (by decide)

/-- C6: the partner-visible hand is the Lead's hand for the Dummy seat and the
Dummy's hand for the three other seats; `tricks_won` is the observing seat's
team total, seat by seat. -/
theorem claim6_observation (s : GameState) :
    (getObservation s 0).dummy_hand = s.hands 1 ∧
    (getObservation s 1).dummy_hand = s.hands 3 ∧
    (getObservation s 2).dummy_hand = s.hands 1 ∧
    (getObservation s 3).dummy_hand = s.hands 1 ∧
    (getObservation s 0).tricks_won = s.tricks_won 0 + s.tricks_won 2 ∧
    (getObservation s 1).tricks_won = s.tricks_won 1 + s.tricks_won 3 ∧
    (getObservation s 2).tricks_won = s.tricks_won 0 + s.tricks_won 2 ∧
    (getObservation s 3).tricks_won = s.tricks_won 1 + s.tricks_won 3 := by
  refine ⟨rfl, rfl, rfl, rfl, ?_, ?_, ?_, ?_⟩ <;> simp [getObservation]

/-- C7 counterexample: constructing a game with the non-positive contract `0`
is not rejected — it succeeds and stores the contract unchanged, with all
hands still empty (no dealing). -/
theorem claim7_counterexample :
    (newGame 0 none).contract = 0 ∧
    (newGame 0 none).hands 0 = [] ∧ (newGame 0 none).hands 1 = [] ∧
    (newGame 0 none).hands 2 = [] ∧ (newGame 0 none).hands 3 = [] ∧
    (newGame 0 none).trick_history = [] :=
  ⟨rfl, rfl, rfl, rfl, rfl, rfl⟩

/-- C7 amended: construction validates nothing — any integer contract,
non-positive included, is accepted and stored unchanged, and no dealing happens
at construction time (every hand starts empty); the number of policies is
fixed at four by the engine's interface, not by an explicit check. -/
theorem claim7_no_validation (c : Int) (seed : Option Int) :
    (newGame c seed).contract = c ∧
    (∀ p : Fin 4, (newGame c seed).hands p = []) ∧
    (newGame c seed).trick_index = 0 ∧
    (newGame c seed).trick_history = [] :=
  ⟨rfl, fun _ => rfl, rfl, rfl⟩

/-- C8 counterexample: resolving a trick with fewer than 4 cards does not
raise — with 1, 2 or 3 cards `determine_trick_winner` returns a winner
position instead of an error. -/
theorem claim8_counterexample :
    determineTrickWinner [⟨Suit.C, Rank.r5⟩] = Except.ok 0 ∧
    determineTrickWinner [⟨Suit.C, Rank.r5⟩, ⟨Suit.C, Rank.r7⟩] = Except.ok 1 ∧
    determineTrickWinner [⟨Suit.C, Rank.r5⟩, ⟨Suit.C, Rank.r7⟩, ⟨Suit.D, Rank.A⟩] =
      Except.ok 1 :=
  ⟨rfl, rfl, rfl⟩

/-- C8 amended: `determine_trick_winner` raises exactly when the current trick
is empty; any trick with at least one card resolves without error. -/
theorem claim8_error_iff_empty (trick : List Card) :
    (∃ e, determineTrickWinner trick = Except.error e) ↔ trick = [] := by
  cases trick with
  | nil => exact ⟨fun _ => rfl, fun _ => ⟨_, rfl⟩⟩
  | cons t0 rest =>
    constructor
    · rintro ⟨e, he⟩
      simp [determineTrickWinner] at he
    · intro h
      exact absurd h (by simp)

/-- C10: when `play_card` raises, the game state it owns is unchanged — the
hands, current trick, trick history and trick counters are exactly as before
the call (the membership checks precede both mutations in the source). -/
theorem claim10_error_preserves_state (s : GameState) (p : Fin 4) (c : Card)
    (h : (playCard s p c).2.isSome = true) : (playCard s p c).1 = s := by
  by_cases h1 : c ∈ s.hands p
  · by_cases h2 : c ∈ getLegalActions (s.hands p) s.current_trick
    · exfalso
      simp [playCard, h1, h2] at h
    · simp [playCard, h1, h2]
  · simp [playCard, h1]

/-- C1: on a completed trick of 4 pairwise-distinct cards,
`determine_trick_winner` returns the position whose card follows the led suit
(the suit of position 0) and carries the maximum rank among led-suit cards;
every led-suit card's rank is dominated, a card of a different suit never
wins, and that maximal led-suit position is unique. -/
theorem claim1_trick_winner (trick : List Card) (hlen : trick.length = 4)
    (hnd : trick.Nodup) :
    ∃ w : Fin 4, determineTrickWinner trick = Except.ok w ∧
      (trick.getD w.val defaultCard).suit = (trick.getD 0 defaultCard).suit ∧
      (∀ i, i < 4 → (trick.getD i defaultCard).suit = (trick.getD 0 defaultCard).suit →
        rankValue (trick.getD i defaultCard) ≤ rankValue (trick.getD w.val defaultCard)) ∧
      (∀ i, i < 4 → (trick.getD i defaultCard).suit = (trick.getD 0 defaultCard).suit →
        rankValue (trick.getD i defaultCard) = rankValue (trick.getD w.val defaultCard) →
        i = w.val) := by
  rcases trick with _ | ⟨c0, _ | ⟨c1, _ | ⟨c2, _ | ⟨c3, _ | ⟨c4, t⟩⟩⟩⟩⟩
  · simp at hlen
  · simp at hlen
  · simp at hlen
  · simp at hlen
  · obtain ⟨hlt, hmax⟩ := pyMaxRangeBy_spec
      (fun pos => cardValue (([c0, c1, c2, c3] : List Card).getD pos defaultCard) c0.suit) 4
      (by norm_num)
    set wp := pyMaxRangeBy
      (fun pos => cardValue (([c0, c1, c2, c3] : List Card).getD pos defaultCard) c0.suit) 4
      with hwp
    have hmod : wp % 4 = wp := Nat.mod_eq_of_lt hlt
    have h0le := hmax 0 (by norm_num)
    have hk0 : cardValue (([c0, c1, c2, c3] : List Card).getD 0 defaultCard) c0.suit
        = rankOrder c0.rank := by
      simp [cardValue]
    rw [hk0] at h0le
    have hpos : 0 < cardValue (([c0, c1, c2, c3] : List Card).getD wp defaultCard) c0.suit := by
      have h2 := two_le_rankOrder c0.rank
      omega
    have hsuitw := cardValue_pos_suit hpos
    have hvalw : cardValue (([c0, c1, c2, c3] : List Card).getD wp defaultCard) c0.suit
        = rankValue (([c0, c1, c2, c3] : List Card).getD wp defaultCard) :=
      cardValue_of_suit hsuitw
    refine ⟨⟨wp % 4, Nat.mod_lt _ (by norm_num)⟩, ?_, ?_, ?_, ?_⟩
    · rfl
    · show (([c0, c1, c2, c3] : List Card).getD (wp % 4) defaultCard).suit
        = (([c0, c1, c2, c3] : List Card).getD 0 defaultCard).suit
      rw [hmod]
      exact hsuitw
    · intro i hi hsi
      show rankValue (([c0, c1, c2, c3] : List Card).getD i defaultCard)
        ≤ rankValue (([c0, c1, c2, c3] : List Card).getD (wp % 4) defaultCard)
      rw [hmod]
      have hki := hmax i hi
      have hsi2 : (([c0, c1, c2, c3] : List Card).getD i defaultCard).suit = c0.suit := hsi
      rw [cardValue_of_suit hsi2, hvalw] at hki
      exact hki
    · intro i hi hsi hri
      show i = wp % 4
      rw [hmod]
      have hsi2 : (([c0, c1, c2, c3] : List Card).getD i defaultCard).suit = c0.suit := hsi
      have hri2 : rankValue (([c0, c1, c2, c3] : List Card).getD i defaultCard)
          = rankValue (([c0, c1, c2, c3] : List Card).getD (wp % 4) defaultCard) := hri
      rw [hmod] at hri2
      have heq : ([c0, c1, c2, c3] : List Card).getD i defaultCard
          = ([c0, c1, c2, c3] : List Card).getD wp defaultCard :=
        card_eq_of_suit_rankValue (hsi2.trans hsuitw.symm) hri2
      clear_value wp
      clear hwp hmod hmax h0le hpos hsuitw hvalw hri hri2 hsi hsi2 hk0
      simp only [List.nodup_cons, List.mem_cons, List.not_mem_nil] at hnd
      interval_cases wp <;> interval_cases i <;> simp_all
  · simp at hlen

/-- Witness for C1: the theorem applied to the concrete completed trick
5C, AC, 2D, KC (position 1 wins with the ace of clubs). -/
theorem claim1_witness :
    ∃ w : Fin 4, determineTrickWinner trickC1 = Except.ok w ∧
      (trickC1.getD w.val defaultCard).suit = (trickC1.getD 0 defaultCard).suit ∧
      (∀ i, i < 4 → (trickC1.getD i defaultCard).suit = (trickC1.getD 0 defaultCard).suit →
        rankValue (trickC1.getD i defaultCard) ≤ rankValue (trickC1.getD w.val defaultCard)) ∧
      (∀ i, i < 4 → (trickC1.getD i defaultCard).suit = (trickC1.getD 0 defaultCard).suit →
        rankValue (trickC1.getD i defaultCard) = rankValue (trickC1.getD w.val defaultCard) →
        i = w.val) :=
  claim1_trick_winner trickC1 (by decide) (by decide)

/-- Witness for C10: a concrete call playing a card absent from the hand
raises and leaves the state intact. -/
theorem claim10_witness :
    (playCard
      { contract := 2, hands := fun i => if i = 0 then [⟨Suit.H, Rank.r9⟩] else [],
        current_trick := [], trick_history := [], tricks_won := fun _ => 0,
        current_player := 0, trick_index := 0, seed := none, oaHistory := fun _ => [] }
      0 ⟨Suit.S, Rank.A⟩).1 =
    { contract := 2, hands := fun i => if i = 0 then [⟨Suit.H, Rank.r9⟩] else [],
      current_trick := [], trick_history := [], tricks_won := fun _ => 0,
      current_player := 0, trick_index := 0, seed := none, oaHistory := fun _ => [] } :=
  claim10_error_preserves_state _ 0 ⟨Suit.S, Rank.A⟩ (by decide)

/-- C9 counterexample: with two Aces in hand — ace of clubs first, while
diamonds holds Ace-King-Queen and the partner-visible hand has 0 diamonds —
the Defender-1 policy leads the ace of clubs, not the Ace of the
Ace-King-Queen suit the claim requires. -/
theorem claim9_counterexample :
    obsTwoAces.current_trick = [] ∧
    (⟨Suit.D, Rank.A⟩ : Card) ∈ obsTwoAces.legal_actions ∧
    (⟨Suit.D, Rank.K⟩ : Card) ∈ obsTwoAces.legal_actions ∧
    (⟨Suit.D, Rank.Q⟩ : Card) ∈ obsTwoAces.legal_actions ∧
    (obsTwoAces.dummy_hand.filter (fun c => decide (c.suit = Suit.D))).length = 0 ∧
    getActionDefender1 obsTwoAces = ⟨Suit.C, Rank.A⟩ ∧
    getActionDefender1 obsTwoAces ≠ ⟨Suit.D, Rank.A⟩ := by
  decide

/-- C9 amended: whenever Defender 1 is on lead and its legal actions contain
the Ace, King and Queen of a suit in which the partner-visible hand holds 0
cards, the rule-based policy leads an Ace — a legal one from a suit in which
the partner-visible hand holds at most 2 cards — though not necessarily the
Ace of that same suit when the hand holds several qualifying Aces. -/
theorem claim9_ace_priority (obs : PlayObservation) (s : Suit)
    (hlead : obs.current_trick = [])
    (hA : (⟨s, Rank.A⟩ : Card) ∈ obs.legal_actions)
    (hK : (⟨s, Rank.K⟩ : Card) ∈ obs.legal_actions)
    (hQ : (⟨s, Rank.Q⟩ : Card) ∈ obs.legal_actions)
    (hzero : (obs.dummy_hand.filter (fun c => decide (c.suit = s))).length = 0) :
    (getActionDefender1 obs).rank = Rank.A ∧
    (obs.dummy_hand.filter
      (fun c => decide (c.suit = (getActionDefender1 obs).suit))).length ≤ 2 ∧
    getActionDefender1 obs ∈ obs.legal_actions := by
  have hmemA : (⟨s, Rank.A⟩ : Card) ∈
      obs.legal_actions.filter (fun c => decide (c.rank = Rank.A)) :=
    List.mem_filter.mpr ⟨hA, by simp⟩
  have hne := List.ne_nil_of_mem hmemA
  have hpredA : (fun ace =>
      decide ((dictGet (groupBySuit obs.dummy_hand) ace.suit).length ≤ 2))
      (⟨s, Rank.A⟩ : Card) = true := by
    simp only [dictGet_groupBySuit]
    simp [hzero]
  have hfs : ((obs.legal_actions.filter (fun c => decide (c.rank = Rank.A))).find?
      (fun ace => decide ((dictGet (groupBySuit obs.dummy_hand) ace.suit).length ≤ 2))).isSome =
      true :=
    List.find?_isSome.mpr ⟨_, hmemA, hpredA⟩
  obtain ⟨a, ha⟩ := Option.isSome_iff_exists.mp hfs
  have hresult : getActionDefender1 obs = a := by
    rw [getActionDefender1_aces hne, ha]
  have hamem := List.mem_of_find?_eq_some ha
  have hpa := List.find?_some ha
  have haA : a.rank = Rank.A := by
    have h2 := (List.mem_filter.mp hamem).2
    simpa using h2
  have halegal : a ∈ obs.legal_actions := (List.mem_filter.mp hamem).1
  have hcount : (obs.dummy_hand.filter (fun c => decide (c.suit = a.suit))).length ≤ 2 := by
    rw [← dictGet_groupBySuit]
    simpa using hpa
  rw [hresult]
  exact ⟨haA, hcount, halegal⟩

/-- Witness for C9: on the one-Ace observation the theorem yields a legal Ace
lead from a suit where the partner-visible hand is weak. -/
theorem claim9_witness :
    (getActionDefender1 obsOneAce).rank = Rank.A ∧
    (obsOneAce.dummy_hand.filter
      (fun c => decide (c.suit = (getActionDefender1 obsOneAce).suit))).length ≤ 2 ∧
    getActionDefender1 obsOneAce ∈ obsOneAce.legal_actions :=
  claim9_ace_priority obsOneAce Suit.H (by decide) (by decide) (by decide) (by decide)
    (by decide)

/-- C5: after a complete game under legal policies, the four seats' trick
counts sum to 13 (lead-team plus defender-team tricks), the lead score is
`(leadTricks - contract) * 20`, the defender score is its negation, and the
two scores sum to zero — for every ambient generator state, seed, contract and
legal policy assignment. -/
theorem claim5_conservation (g : List Nat) (c : Int) (seed : Option Int)
    (agents : Fin 4 → Policy)
    (hleg : ∀ (p : Fin 4) (obs : PlayObservation),
      obs.legal_actions ≠ [] → agents p obs ∈ obs.legal_actions) :
    ∃ (r : GameResult) (gq : List Nat),
      playGame g (newGame c seed) agents = (Except.ok r, gq) ∧
      r.lead_tricks + r.defender_tricks = 13 ∧
      r.contract = c ∧
      r.lead_score = ((r.lead_tricks : Int) - c) * 20 ∧
      r.defender_score = - r.lead_score ∧
      r.lead_score + r.defender_score = 0 := by
  have hdl : ∀ q : Fin 4,
      (((deal g (newGame c seed).seed (newGame c seed)).1).hands q).length = 13 - 0 :=
    fun q => deal_hands_length g (newGame c seed).seed (newGame c seed) q
  obtain ⟨sf, ef, hlenf, hsumf, hconf⟩ :=
    playTricksN_ok agents hleg 13 (deal g (newGame c seed).seed (newGame c seed)).1 0
      hdl rfl (by norm_num)
  have hc : sf.contract = c := by
    rw [hconf]
    rfl
  have hsum13 : sf.tricks_won 0 + sf.tricks_won 1 + sf.tricks_won 2 + sf.tricks_won 3 = 13 := by
    rw [hsumf]
    rfl
  refine ⟨{ lead_tricks := sf.tricks_won 1 + sf.tricks_won 3
            defender_tricks := sf.tricks_won 0 + sf.tricks_won 2
            contract := sf.contract
            lead_score := (calculateScores sf).1
            defender_score := (calculateScores sf).2
            trick_history := sf.trick_history
            observation_action_history := sf.oaHistory },
    (deal g (newGame c seed).seed (newGame c seed)).2, ?_, ?_, hc, ?_, rfl, ?_⟩
  · simp only [playGame]
    rw [ef]
  · show sf.tricks_won 1 + sf.tricks_won 3 + (sf.tricks_won 0 + sf.tricks_won 2) = 13
    omega
  · show (calculateScores sf).1 = ((↑(sf.tricks_won 1 + sf.tricks_won 3) : Int) - c) * 20
    simp only [calculateScores]
    rw [hc]
  · show (calculateScores sf).1 + (calculateScores sf).2 = 0
    simp [calculateScores]

/-- Witness for C5: the theorem at the concrete game with contract 1, no seed,
empty ambient generator state and the play-first-legal-card policy everywhere. -/
theorem claim5_witness :
    ∃ (r : GameResult) (gq : List Nat),
      playGame [] (newGame 1 none) polHead = (Except.ok r, gq) ∧
      r.lead_tricks + r.defender_tricks = 13 ∧
      r.contract = 1 ∧
      r.lead_score = ((r.lead_tricks : Int) - 1) * 20 ∧
      r.defender_score = - r.lead_score ∧
      r.lead_score + r.defender_score = 0 :=
  claim5_conservation [] 1 none polHead (fun _ obs h => headD_mem h defaultCard)

/-- C4 (seed-truthiness bug): two games both constructed with integer seed 0
and the same deterministic policies do NOT replay identically.  Because
`deal` guards reseeding with `if seed:` and `0` is falsy in Python, neither
game reseeds; each shuffles with the ambient global-generator state, and the
second game starts from the state the first left behind, producing a
different deal and a different trick history. -/
theorem claim4_seed_zero_not_deterministic :
    run1.1.toOption.isSome = true ∧
    run2.1.toOption.isSome = true ∧
    run1.1.toOption.map GameResult.trick_history ≠
      run2.1.toOption.map GameResult.trick_history := by
  decide

/-- Witness for C8 (amended): the empty trick is exactly the raising case. -/
theorem claim8_witness : ∃ e, determineTrickWinner [] = Except.error e :=
  (claim8_error_iff_empty []).mpr rfl
